import Mathlib

/-!
Shallow embedding of the note-taking client's synchronization layer:
the local state store (src/src/store/notesStore.ts), the list filter/sort
view (src/src/components/NotesList.tsx), the note editor's autosave
controller (src/src/components/NoteEditor.tsx), the profile settings
(src/src/components/SettingsDialog.tsx), and the relational schema with
its folder foreign key (migration embedded in src/src/hooks/useTheme.ts).

Timestamps (JS `Date`) are modelled as natural numbers (milliseconds
since epoch).  JS strings are Lean `String`s; JS arrays are lists.
`Array.from(new Set(xs))` keeps the first occurrence of each element,
modelled by `jsSetDedup`.  Remote (supabase) calls are modelled by
passing the remote outcome as an explicit `Except` argument: the store
functions describe exactly what the TypeScript does with a given
response.
-/

set_option linter.unusedTactic false
set_option linter.unreachableTactic false
set_option linter.unnecessarySimpa false

namespace NotesApp

/-- A note, per the `Note` interface in src/src/types/note.ts. -/
structure Note where
  id : String
  title : String
  content : String
  tags : List String
  isFavorite : Bool
  createdAt : Nat
  updatedAt : Nat
  folderId : Option String
deriving DecidableEq, Repr

/-- A folder, per the `Folder` interface in src/src/types/note.ts. -/
structure Folder where
  id : String
  name : String
  color : Option String
  createdAt : Nat
deriving DecidableEq, Repr

/-- A row of the `notes` table as returned by the backend.  `tags`,
`is_favorite` and `folder_id` are nullable (the store defends with
`|| []` / `|| false`); `content` is produced by the editor and typed as
a string here (the schema default is `''`). -/
structure NoteRow where
  id : String
  title : String
  content : String
  tags : Option (List String)
  is_favorite : Option Bool
  folder_id : Option String
  created_at : Nat
  updated_at : Nat
deriving DecidableEq, Repr

/-- A row of the `folders` table. -/
structure FolderRow where
  id : String
  name : String
  color : Option String
  created_at : Nat
deriving DecidableEq, Repr

/-- Conversion of a fetched/inserted row into a local `Note`, as done in
`addNote` (lines 54-63) and `fetchNotes` (lines 178-187) of
src/src/store/notesStore.ts. -/
def rowToNote (r : NoteRow) : Note :=
  { id := r.id
    title := r.title
    content := r.content
    tags := r.tags.getD []
    isFavorite := r.is_favorite.getD false
    createdAt := r.created_at
    updatedAt := r.updated_at
    folderId := r.folder_id }

/-- Conversion of a fetched row into a local `Folder`
(`fetchFolders`, lines 212-217). -/
def rowToFolder (r : FolderRow) : Folder :=
  { id := r.id, name := r.name, color := r.color, createdAt := r.created_at }

/-- First-occurrence deduplication, the meaning of
`Array.from(new Set([...]))` in JS (a `Set` keeps insertion order and
drops later duplicates). -/
def jsSetDedup : List String → List String
  | [] => []
  | a :: rest => a :: jsSetDedup (rest.filter (fun b => b != a))
termination_by l => l.length
decreasing_by
  simp only [List.length_cons]
  exact Nat.lt_succ_of_le (List.length_filter_le _ _)

theorem mem_jsSetDedup {t : String} : ∀ {l : List String}, t ∈ jsSetDedup l ↔ t ∈ l := by
  intro l
  induction l using jsSetDedup.induct with
  | case1 => simp [jsSetDedup]
  | case2 a rest ih =>
    simp only [jsSetDedup, List.mem_cons, ih, List.mem_filter, bne_iff_ne, ne_eq]
    constructor
    · rintro (h | ⟨h, _⟩)
      · exact Or.inl h
      · exact Or.inr h
    · rintro (h | h)
      · exact Or.inl h
      · by_cases hta : t = a
        · exact Or.inl hta
        · exact Or.inr ⟨h, hta⟩

/-- The in-memory store state (`NotesState` in src/src/store/notesStore.ts;
`lastSync` is the persisted timestamp, `isLoading` the spinner flag). -/
structure NotesState where
  notes : List Note
  folders : List Folder
  tags : List String
  isLoading : Bool
  lastSync : Option Nat
deriving DecidableEq, Repr

/-- Errors a mutating store operation can throw: the explicit
`'User not authenticated'` throw, or a rethrown backend error. -/
inductive StoreErr where
  | notAuthenticated
  | remote (msg : String)
deriving DecidableEq, Repr

/-- The payload of `addNote` (an `Omit<Note, 'id' | 'createdAt' | 'updatedAt'>`). -/
structure NewNote where
  title : String
  content : String
  tags : List String
  isFavorite : Bool
  folderId : Option String
deriving DecidableEq, Repr

/-- A `Partial<Note>` restricted to the columns `updateNote` writes
(title, content, tags, is_favorite, folder_id; lines 74-80).  A `none`
field is absent from the update; `folderId := some v` carries the new
(possibly null) folder reference. -/
structure NoteUpdates where
  title : Option String
  content : Option String
  tags : Option (List String)
  isFavorite : Option Bool
  folderId : Option (Option String)
deriving DecidableEq, Repr

/-- A `Partial<Folder>` for `updateFolder` (name and/or color). -/
structure FolderUpdates where
  name : Option String
  color : Option (Option String)
deriving DecidableEq, Repr

/-- The JS spread `{ ...note, ...updates, updatedAt: new Date() }`
(line 87): fields present in `updates` override, `updatedAt` is set to
the current time. -/
def mergeNote (n : Note) (u : NoteUpdates) (now : Nat) : Note :=
  { id := n.id
    title := u.title.getD n.title
    content := u.content.getD n.content
    tags := u.tags.getD n.tags
    isFavorite := u.isFavorite.getD n.isFavorite
    createdAt := n.createdAt
    updatedAt := now
    folderId := u.folderId.getD n.folderId }

/-- The JS spread `{ ...folder, ...updates }` (line 146). -/
def mergeFolder (f : Folder) (u : FolderUpdates) : Folder :=
  { id := f.id
    name := u.name.getD f.name
    color := u.color.getD f.color
    createdAt := f.createdAt }

/-- `addNote` (lines 39-69): throws when there is no authenticated user;
then issues the insert; throws on a backend error; only then prepends
the returned row and unions its tags into the tag index.  `noteData` is
the payload sent to the backend; the local note is built from the
backend's returned `row`. -/
def addNote (st : NotesState) (_noteData : NewNote) (user : Option String)
    (remote : Except String NoteRow) : NotesState × Except StoreErr Unit :=
  match user with
  | none => (st, Except.error StoreErr.notAuthenticated)
  | some _ =>
    match remote with
    | Except.error e => (st, Except.error (StoreErr.remote e))
    | Except.ok row =>
      let newNote := rowToNote row
      ({ st with
          notes := newNote :: st.notes
          tags := jsSetDedup (st.tags ++ newNote.tags) },
       Except.ok ())

/-- `updateNote` (lines 71-94): issues the update; throws on a backend
error; only then merges `u` into the matching note (stamping `now`) and
unions `u`'s tags (or `[]` when absent) into the tag index. -/
def updateNote (st : NotesState) (id : String) (u : NoteUpdates) (now : Nat)
    (remote : Except String Unit) : NotesState × Except StoreErr Unit :=
  match remote with
  | Except.error e => (st, Except.error (StoreErr.remote e))
  | Except.ok _ =>
    ({ st with
        notes := st.notes.map (fun n => if n.id = id then mergeNote n u now else n)
        tags := jsSetDedup (st.tags ++ u.tags.getD []) },
     Except.ok ())

/-- `deleteNote` (lines 96-107): issues the delete; throws on a backend
error; only then filters the note out.  The tag index is not touched. -/
def deleteNote (st : NotesState) (id : String)
    (remote : Except String Unit) : NotesState × Except StoreErr Unit :=
  match remote with
  | Except.error e => (st, Except.error (StoreErr.remote e))
  | Except.ok _ =>
    ({ st with notes := st.notes.filter (fun n => n.id != id) }, Except.ok ())

/-- `addFolder` (lines 109-134): auth check, insert, throw on error,
then append the returned folder. -/
def addFolder (st : NotesState) (_folderData : FolderUpdates) (user : Option String)
    (remote : Except String FolderRow) : NotesState × Except StoreErr Unit :=
  match user with
  | none => (st, Except.error StoreErr.notAuthenticated)
  | some _ =>
    match remote with
    | Except.error e => (st, Except.error (StoreErr.remote e))
    | Except.ok row =>
      ({ st with folders := st.folders ++ [rowToFolder row] }, Except.ok ())

/-- `updateFolder` (lines 136-149): update, throw on error, then merge
locally. -/
def updateFolder (st : NotesState) (id : String) (u : FolderUpdates)
    (remote : Except String Unit) : NotesState × Except StoreErr Unit :=
  match remote with
  | Except.error e => (st, Except.error (StoreErr.remote e))
  | Except.ok _ =>
    ({ st with
        folders := st.folders.map (fun f => if f.id = id then mergeFolder f u else f) },
     Except.ok ())

/-- `deleteFolder` (lines 151-162): delete, throw on error, then filter
the folder out.  The local `notes` list is not touched. -/
def deleteFolder (st : NotesState) (id : String)
    (remote : Except String Unit) : NotesState × Except StoreErr Unit :=
  match remote with
  | Except.error e => (st, Except.error (StoreErr.remote e))
  | Except.ok _ =>
    ({ st with folders := st.folders.filter (fun f => f.id != id) }, Except.ok ())

/-- C1: every mutating store operation is write-through: when the remote
write fails, the local state is returned exactly unchanged and the
failure is rethrown; local state is only modified in the success branch. -/
theorem mutations_are_write_through :
    (∀ (st : NotesState) (nd : NewNote) (uid : String) (e : String),
        addNote st nd (some uid) (Except.error e) = (st, Except.error (StoreErr.remote e))) ∧
    (∀ (st : NotesState) (id : String) (u : NoteUpdates) (now : Nat) (e : String),
        updateNote st id u now (Except.error e) = (st, Except.error (StoreErr.remote e))) ∧
    (∀ (st : NotesState) (id : String) (e : String),
        deleteNote st id (Except.error e) = (st, Except.error (StoreErr.remote e))) ∧
    (∀ (st : NotesState) (fd : FolderUpdates) (uid : String) (e : String),
        addFolder st fd (some uid) (Except.error e) = (st, Except.error (StoreErr.remote e))) ∧
    (∀ (st : NotesState) (id : String) (u : FolderUpdates) (e : String),
        updateFolder st id u (Except.error e) = (st, Except.error (StoreErr.remote e))) ∧
    (∀ (st : NotesState) (id : String) (e : String),
        deleteFolder st id (Except.error e) = (st, Except.error (StoreErr.remote e))) := by
  refine ⟨?_, ?_, ?_, ?_, ?_, ?_⟩ <;> intros <;> rfl

/-- Descending order on `updated_at`: the relation the backend's
`.order('updated_at', { ascending: false })` sorts by (line 170). -/
def rowUpdatedGe (a b : NoteRow) : Prop := b.updated_at ≤ a.updated_at

instance : DecidableRel rowUpdatedGe := fun a b => Nat.decLe b.updated_at a.updated_at

instance : IsTotal NoteRow rowUpdatedGe := ⟨fun a b => Nat.le_total b.updated_at a.updated_at⟩

instance : IsTrans NoteRow rowUpdatedGe := ⟨fun _ _ _ h1 h2 => Nat.le_trans h2 h1⟩

/-- The backend's answer to the `fetchNotes` select: the notes table
ordered by `updated_at` descending. -/
def serverNotesSelect (table : List NoteRow) : List NoteRow :=
  List.insertionSort rowUpdatedGe table

/-- `fetchNotes` (lines 164-199): on a backend error, only the loading
flag is reset; on success the note collection is replaced by the fetched
rows, the tag index is recomputed from scratch as the deduplicated union
of the fetched notes' tags, and the sync timestamp is set.  (The
function first sets `isLoading := true`; the state after completion is
modelled.) -/
def fetchNotes (st : NotesState) (resp : Except String (List NoteRow))
    (now : Nat) : NotesState :=
  match resp with
  | Except.error _ => { st with isLoading := false }
  | Except.ok rows =>
    let notes := rows.map rowToNote
    { st with
        notes := notes
        tags := jsSetDedup (notes.flatMap Note.tags)
        isLoading := false
        lastSync := some now }

/-- C2: a successful `fetchNotes` replaces the local note collection by
exactly the fetched rows (in the server's last-updated-descending order,
independent of the previous local notes), and the tag index becomes
exactly the union of the fetched notes' tags, with no stale entries. -/
theorem fetchNotes_overwrites (st : NotesState) (table : List NoteRow) (now : Nat) :
    (fetchNotes st (Except.ok (serverNotesSelect table)) now).notes
        = (serverNotesSelect table).map rowToNote ∧
    List.Sorted (fun a b : Note => b.updatedAt ≤ a.updatedAt)
        (fetchNotes st (Except.ok (serverNotesSelect table)) now).notes ∧
    (∀ t : String,
        t ∈ (fetchNotes st (Except.ok (serverNotesSelect table)) now).tags ↔
        ∃ n ∈ (fetchNotes st (Except.ok (serverNotesSelect table)) now).notes, t ∈ n.tags) := by
  refine ⟨rfl, ?_, ?_⟩
  · show List.Sorted _ ((serverNotesSelect table).map rowToNote)
    rw [List.Sorted, List.pairwise_map]
    exact List.sorted_insertionSort rowUpdatedGe table
  · intro t
    show t ∈ jsSetDedup (((serverNotesSelect table).map rowToNote).flatMap Note.tags) ↔ _
    rw [mem_jsSetDedup, List.mem_flatMap]
    rfl

/-- C3: after a successful `updateNote(id, u)` at time `now`, the note
with that id is replaced by the merge of its old fields with `u`:
`updatedAt` strictly increases (given the clock moved past the stored
timestamp), fields absent from `u` are unchanged, fields present in `u`
take exactly the value given in `u`, and every other note is unchanged. -/
theorem updateNote_merges_partial_update (st : NotesState) (id : String)
    (u : NoteUpdates) (now : Nat) (n : Note)
    (hn : n ∈ st.notes) (hid : n.id = id) (hclock : n.updatedAt < now) :
    n.updatedAt < (mergeNote n u now).updatedAt ∧
    (updateNote st id u now (Except.ok ())).1.notes
        = st.notes.map (fun m => if m.id = id then mergeNote m u now else m) ∧
    mergeNote n u now ∈ (updateNote st id u now (Except.ok ())).1.notes ∧
    (u.title = none → (mergeNote n u now).title = n.title) ∧
    (∀ v, u.title = some v → (mergeNote n u now).title = v) ∧
    (u.content = none → (mergeNote n u now).content = n.content) ∧
    (∀ v, u.content = some v → (mergeNote n u now).content = v) ∧
    (u.tags = none → (mergeNote n u now).tags = n.tags) ∧
    (∀ v, u.tags = some v → (mergeNote n u now).tags = v) ∧
    (u.isFavorite = none → (mergeNote n u now).isFavorite = n.isFavorite) ∧
    (∀ v, u.isFavorite = some v → (mergeNote n u now).isFavorite = v) ∧
    (u.folderId = none → (mergeNote n u now).folderId = n.folderId) ∧
    (∀ v, u.folderId = some v → (mergeNote n u now).folderId = v) ∧
    (mergeNote n u now).id = n.id ∧
    (mergeNote n u now).createdAt = n.createdAt ∧
    (∀ m ∈ st.notes, m.id ≠ id → m ∈ (updateNote st id u now (Except.ok ())).1.notes) := by
  refine ⟨hclock, rfl, ?_, ?_, ?_, ?_, ?_, ?_, ?_, ?_, ?_, ?_, ?_, rfl, rfl, ?_⟩
  · have : (if n.id = id then mergeNote n u now else n) ∈
        st.notes.map (fun m => if m.id = id then mergeNote m u now else m) :=
      List.mem_map_of_mem _ hn
    rw [if_pos hid] at this
    exact this
  all_goals first
    | (intro h; simp [mergeNote, h]; done)
    | (intro v h; simp [mergeNote, h]; done)
    | (intro m hm hmid
       have : (if m.id = id then mergeNote m u now else m) ∈
           st.notes.map (fun x => if x.id = id then mergeNote x u now else x) :=
         List.mem_map_of_mem _ hm
       rw [if_neg hmid] at this
       exact this)

/-- A sample note used to instantiate the hypothesis-bearing theorems. -/
def sampleNote : Note :=
  { id := "n1", title := "Old", content := "body", tags := ["home"]
    isFavorite := false, createdAt := 0, updatedAt := 3, folderId := none }

/-- A sample store state holding just `sampleNote`. -/
def sampleState : NotesState :=
  { notes := [sampleNote], folders := [], tags := ["home"]
    isLoading := false, lastSync := none }

/-- A sample partial update: sets the title only. -/
def sampleUpdates : NoteUpdates :=
  { title := some "New", content := none, tags := none
    isFavorite := none, folderId := none }

theorem updateNote_merges_partial_update_witness :
    sampleNote.updatedAt < (mergeNote sampleNote sampleUpdates 10).updatedAt :=
  (updateNote_merges_partial_update sampleState "n1" sampleUpdates 10 sampleNote
      (by decide) (by decide) (by decide)).1

/-- C6: `addNote` and `updateNote` only ever add entries to the tag
index — the new index is exactly the old one unioned with the mutated
note's tags (for `updateNote`, provided the note's previous tags were
already indexed, as every reachable state satisfies; unconditionally the
index grows by exactly the tags carried in the update) — while
`deleteNote` leaves the tag index identically unchanged, so removing the
last note carrying a tag does not remove that tag. -/
theorem tagIndex_additive_on_mutations :
    (∀ (st : NotesState) (nd : NewNote) (uid : String) (row : NoteRow) (t : String),
        t ∈ (addNote st nd (some uid) (Except.ok row)).1.tags ↔
          t ∈ st.tags ∨ t ∈ (rowToNote row).tags) ∧
    (∀ (st : NotesState) (id : String) (u : NoteUpdates) (now : Nat) (t : String),
        t ∈ (updateNote st id u now (Except.ok ())).1.tags ↔
          t ∈ st.tags ∨ t ∈ u.tags.getD []) ∧
    (∀ (st : NotesState) (id : String) (u : NoteUpdates) (now : Nat) (n : Note),
        n ∈ st.notes → n.id = id → (∀ t ∈ n.tags, t ∈ st.tags) →
        ∀ t : String,
          t ∈ (updateNote st id u now (Except.ok ())).1.tags ↔
            t ∈ st.tags ∨ t ∈ (mergeNote n u now).tags) ∧
    (∀ (st : NotesState) (id : String),
        (deleteNote st id (Except.ok ())).1.tags = st.tags) := by
  refine ⟨?_, ?_, ?_, fun st id => rfl⟩
  · intro st nd uid row t
    show t ∈ jsSetDedup (st.tags ++ (rowToNote row).tags) ↔ _
    rw [mem_jsSetDedup, List.mem_append]
  · intro st id u now t
    show t ∈ jsSetDedup (st.tags ++ u.tags.getD []) ↔ _
    rw [mem_jsSetDedup, List.mem_append]
  · intro st id u now n _hn _hid hsub t
    show t ∈ jsSetDedup (st.tags ++ u.tags.getD []) ↔ _
    rw [mem_jsSetDedup, List.mem_append]
    cases hu : u.tags with
    | none =>
      simp only [hu, Option.getD_none, List.not_mem_nil, or_false, mergeNote]
      constructor
      · exact Or.inl
      · rintro (h | h)
        · exact h
        · exact hsub t h
    | some ts =>
      simp [hu, mergeNote]

theorem tagIndex_additive_on_mutations_witness :
    ∀ t : String,
      t ∈ (updateNote sampleState "n1" sampleUpdates 10 (Except.ok ())).1.tags ↔
        t ∈ sampleState.tags ∨ t ∈ (mergeNote sampleNote sampleUpdates 10).tags :=
  tagIndex_additive_on_mutations.2.2.1 sampleState "n1" sampleUpdates 10 sampleNote
    (by decide) (by decide) (by decide)

/-- The sort keys offered by the list view
(src/src/components/NotesList.tsx line 28). -/
inductive SortKey where
  | date
  | title
  | favorite
deriving DecidableEq, Repr

/-- `localeCompare`, modelled as code-point string comparison. -/
def cmpStrings (a b : String) : Int :=
  if a < b then -1 else if b < a then 1 else 0

/-- The sort comparator of the list view (NotesList.tsx lines 45-55): in
`favorite` mode favorites order first, but on a favorite tie the code
falls through to the final date comparison (`// Default to date
sorting`); in `title` mode it compares titles; otherwise it compares
`updatedAt` descending. -/
def cmpNotes (k : SortKey) (a b : Note) : Int :=
  if k = SortKey.favorite ∧ a.isFavorite = true ∧ b.isFavorite = false then -1
  else if k = SortKey.favorite ∧ a.isFavorite = false ∧ b.isFavorite = true then 1
  else if k = SortKey.title then cmpStrings a.title b.title
  else (b.updatedAt : Int) - (a.updatedAt : Int)

/-- The ordering induced by the comparator: `a` may precede `b`. -/
def cmpLe (k : SortKey) (a b : Note) : Prop := cmpNotes k a b ≤ 0

instance (k : SortKey) : DecidableRel (cmpLe k) :=
  fun a b => Int.decLe (cmpNotes k a b) 0

/-- `Array.prototype.sort` with the view's comparator.  ES2019 sort is
stable, which a stable insertion sort on `cmpNotes k a b ≤ 0`
implements. -/
def jsSortNotes (k : SortKey) (l : List Note) : List Note :=
  List.insertionSort (cmpLe k) l

theorem cmpLe_favorite_iff (a b : Note) :
    cmpLe SortKey.favorite a b ↔
      (a.isFavorite = true ∧ b.isFavorite = false) ∨
      (a.isFavorite = b.isFavorite ∧ b.updatedAt ≤ a.updatedAt) := by
  cases ha : a.isFavorite <;> cases hb : b.isFavorite <;>
    simp [cmpLe, cmpNotes, ha, hb] <;> omega

instance : IsTotal Note (cmpLe SortKey.favorite) := by
  constructor
  intro a b
  rw [cmpLe_favorite_iff, cmpLe_favorite_iff]
  cases ha : a.isFavorite <;> cases hb : b.isFavorite <;> simp [ha, hb] <;> omega

instance : IsTrans Note (cmpLe SortKey.favorite) := by
  constructor
  intro a b c hab hbc
  rw [cmpLe_favorite_iff] at hab hbc ⊢
  cases ha : a.isFavorite <;> cases hb : b.isFavorite <;> cases hc : c.isFavorite <;>
    simp [ha, hb, hc] at hab hbc ⊢ <;> omega

/-- Non-favorite note updated at time 1. -/
def cexNoteA : Note :=
  { id := "a", title := "A", content := "", tags := [], isFavorite := false
    createdAt := 0, updatedAt := 1, folderId := none }

/-- Favorite note updated at time 0. -/
def cexNoteB : Note :=
  { id := "b", title := "B", content := "", tags := [], isFavorite := true
    createdAt := 0, updatedAt := 0, folderId := none }

/-- Non-favorite note updated at time 2 (later than `cexNoteA`). -/
def cexNoteC : Note :=
  { id := "c", title := "C", content := "", tags := [], isFavorite := false
    createdAt := 0, updatedAt := 2, folderId := none }

/-- C4 counterexample: sorting `[A(fav=false), B(fav=true), C(fav=false)]`
by the `favorite` key does not preserve the input order of the
non-favorite ties — the comparator falls through to date sorting, so the
output is `[B, C, A]` (C was updated later than A), not the claimed
`[B, A, C]`. -/
theorem favoriteSort_counterexample :
    jsSortNotes SortKey.favorite [cexNoteA, cexNoteB, cexNoteC]
        = [cexNoteB, cexNoteC, cexNoteA] ∧
    jsSortNotes SortKey.favorite [cexNoteA, cexNoteB, cexNoteC]
        ≠ [cexNoteB, cexNoteA, cexNoteC] := by
  constructor <;> decide

/-- C4 amended: sorting by the `favorite` key yields a permutation of
the input in which every favorite precedes every non-favorite, and notes
with the same favorite flag are ordered by `updatedAt` descending (the
comparator's date fallback), not by input position. -/
theorem favoriteSort_favorites_first_then_date (l : List Note) :
    (jsSortNotes SortKey.favorite l).Perm l ∧
    List.Pairwise
      (fun a b => (b.isFavorite = true → a.isFavorite = true) ∧
                  (a.isFavorite = b.isFavorite → b.updatedAt ≤ a.updatedAt))
      (jsSortNotes SortKey.favorite l) := by
  refine ⟨List.perm_insertionSort (cmpLe SortKey.favorite) l, ?_⟩
  have hs := List.sorted_insertionSort (cmpLe SortKey.favorite) l
  refine hs.imp ?_
  intro a b h
  rw [cmpLe_favorite_iff] at h
  rcases h with ⟨h1, h2⟩ | ⟨h1, h2⟩
  · constructor
    · intro _; exact h1
    · intro he; rw [h1, h2] at he; cases he
  · constructor
    · intro hb; rw [h1, hb]
    · intro _; exact h2

/-- JS `toLowerCase` on one character (ASCII letters). -/
def jsLowerChar (c : Char) : Char :=
  if 65 ≤ c.toNat ∧ c.toNat ≤ 90 then Char.ofNat (c.toNat + 32) else c

/-- JS `String.prototype.toLowerCase`. -/
def jsToLower (s : String) : String := String.mk (s.data.map jsLowerChar)

/-- Whether `hay` starts with `needle`. -/
def leadsWith : List Char → List Char → Bool
  | [], _ => true
  | _ :: _, [] => false
  | a :: as, b :: bs => a == b && leadsWith as bs

theorem leadsWith_iff : ∀ (n h : List Char), leadsWith n h = true ↔ ∃ t, h = n ++ t := by
  intro n
  induction n with
  | nil => intro h; simpa [leadsWith] using ⟨h, rfl⟩
  | cons a as ih =>
    intro h
    cases h with
    | nil => simp [leadsWith]
    | cons b bs =>
      simp only [leadsWith, Bool.and_eq_true, beq_iff_eq, ih, List.cons_append, List.cons.injEq]
      constructor
      · rintro ⟨rfl, t, rfl⟩; exact ⟨t, rfl, rfl⟩
      · rintro ⟨t, rfl, rfl⟩; exact ⟨rfl, t, rfl⟩

/-- JS `String.prototype.includes` on the character lists: `needle`
occurs contiguously inside `hay`. -/
def containsSub (needle : List Char) : List Char → Bool
  | [] => needle.isEmpty
  | c :: t => leadsWith needle (c :: t) || containsSub needle t

theorem containsSub_iff (n : List Char) :
    ∀ h : List Char, containsSub n h = true ↔ ∃ l r, h = l ++ n ++ r := by
  intro h
  induction h with
  | nil =>
    simp only [containsSub, List.isEmpty_iff]
    constructor
    · rintro rfl; exact ⟨[], [], rfl⟩
    · rintro ⟨l, r, hl⟩
      rcases List.append_eq_nil.mp hl.symm with ⟨hl2, -⟩
      exact (List.append_eq_nil.mp hl2).2
  | cons c t ih =>
    simp only [containsSub, Bool.or_eq_true, leadsWith_iff, ih]
    constructor
    · rintro (⟨s, hs⟩ | ⟨l, r, rfl⟩)
      · exact ⟨[], s, by simpa using hs⟩
      · exact ⟨c :: l, r, rfl⟩
    · rintro ⟨l, r, hl⟩
      cases l with
      | nil => exact Or.inl ⟨r, by simpa using hl⟩
      | cons x xs =>
        rcases hl with ⟨rfl, hl⟩
        exact Or.inr ⟨xs, r, by simpa using hl⟩

/-- JS `hay.includes(needle)`. -/
def jsIncludes (hay needle : String) : Bool := containsSub needle.data hay.data

/-- The search predicate of the list view (NotesList.tsx lines 37-39):
case-insensitive substring match of the query against title or content. -/
def matchesSearch (q : String) (n : Note) : Bool :=
  jsIncludes (jsToLower n.title) (jsToLower q) ||
  jsIncludes (jsToLower n.content) (jsToLower q)

/-- The tag predicate of the list view (line 41): vacuous when no tag is
selected, otherwise the note must carry the selected tag. -/
def matchesTag (sel : Option String) (n : Note) : Bool :=
  match sel with
  | none => true
  | some t => n.tags.contains t

/-- The filter stage of `filteredNotes` (lines 35-44). -/
def filterNotes (notes : List Note) (q : String) (sel : Option String) : List Note :=
  notes.filter (fun n => matchesSearch q n && matchesTag sel n)

/-- `filteredNotes` (lines 35-55): filter by search and tag, then sort
by the selected key. -/
def filteredNotes (notes : List Note) (q : String) (sel : Option String)
    (k : SortKey) : List Note :=
  jsSortNotes k (filterNotes notes q sel)

/-- The store's `searchNotes` (notesStore.ts lines 232-242): unlike the
view's search it also matches the query against each tag. -/
def searchNotes (notes : List Note) (q : String) : List Note :=
  notes.filter (fun n =>
    jsIncludes (jsToLower n.title) (jsToLower q) ||
    jsIncludes (jsToLower n.content) (jsToLower q) ||
    n.tags.any (fun tag => jsIncludes (jsToLower tag) (jsToLower q)))

/-- A note whose tag contains "bud" but whose title and content do not. -/
def taggedOnlyNote : Note :=
  { id := "t1", title := "Daily", content := "stuff", tags := ["budget"]
    isFavorite := false, createdAt := 0, updatedAt := 0, folderId := none }

/-- C7 counterexample: the store's `searchNotes` returns a note for the
query "bud" although "bud" is not a case-insensitive substring of its
title or of its content — it matched the tag "budget", so matching is
not restricted to title and content. -/
theorem searchNotes_matches_tags_counterexample :
    searchNotes [taggedOnlyNote] "bud" = [taggedOnlyNote] ∧
    matchesSearch "bud" taggedOnlyNote = false := by
  constructor <;> decide

/-- The "Shopping" note of the spec's filter example. -/
def shoppingNote : Note :=
  { id := "s1", title := "Shopping", content := "milk and eggs", tags := ["home"]
    isFavorite := false, createdAt := 0, updatedAt := 2, folderId := none }

/-- The "Budget" note of the spec's filter example. -/
def budgetNote : Note :=
  { id := "b1", title := "Budget", content := "plan expenses", tags := ["work", "home"]
    isFavorite := false, createdAt := 0, updatedAt := 1, folderId := none }

/-- C7 amended: in the list view a note passes the filter exactly when
the query is a case-insensitive substring of its title or of its content
and it carries the selected tag (search and tag filters intersect); the
store's `searchNotes` helper additionally matches notes whose tags
contain the query.  The cited examples hold: searching "bud" returns
only "Budget", filtering by tag "work" returns only "Budget", and the
combined filters intersect. -/
theorem search_filter_characterization :
    (∀ (notes : List Note) (q : String) (sel : Option String) (k : SortKey) (n : Note),
        n ∈ filteredNotes notes q sel k ↔
          n ∈ notes ∧
          ((∃ l r, (jsToLower n.title).data = l ++ (jsToLower q).data ++ r) ∨
           (∃ l r, (jsToLower n.content).data = l ++ (jsToLower q).data ++ r)) ∧
          (∀ t, sel = some t → t ∈ n.tags)) ∧
    (∀ (notes : List Note) (q : String) (n : Note),
        n ∈ searchNotes notes q ↔
          n ∈ notes ∧
          ((∃ l r, (jsToLower n.title).data = l ++ (jsToLower q).data ++ r) ∨
           (∃ l r, (jsToLower n.content).data = l ++ (jsToLower q).data ++ r) ∨
           (∃ tag ∈ n.tags, ∃ l r, (jsToLower tag).data = l ++ (jsToLower q).data ++ r))) ∧
    filteredNotes [shoppingNote, budgetNote] "bud" none SortKey.date = [budgetNote] ∧
    filteredNotes [shoppingNote, budgetNote] "" (some "work") SortKey.date = [budgetNote] ∧
    filteredNotes [shoppingNote, budgetNote] "bud" (some "work") SortKey.date = [budgetNote] ∧
    filteredNotes [shoppingNote, budgetNote] "shop" (some "work") SortKey.date = [] := by
  refine ⟨?_, ?_, by decide, by decide, by decide, by decide⟩
  · intro notes q sel k n
    rw [filteredNotes, jsSortNotes,
      (List.perm_insertionSort (cmpLe k) (filterNotes notes q sel)).mem_iff,
      filterNotes, List.mem_filter]
    simp only [Bool.and_eq_true, matchesSearch, Bool.or_eq_true, jsIncludes,
      containsSub_iff, matchesTag]
    constructor
    · rintro ⟨hmem, hsearch, htag⟩
      refine ⟨hmem, hsearch, ?_⟩
      intro t ht
      rw [ht] at htag
      simpa using htag
    · rintro ⟨hmem, hsearch, htag⟩
      refine ⟨hmem, hsearch, ?_⟩
      cases sel with
      | none => rfl
      | some t => simpa using htag t rfl
  · intro notes q n
    rw [searchNotes, List.mem_filter]
    simp only [Bool.or_eq_true, jsIncludes, containsSub_iff, List.any_eq_true]
    rw [or_assoc]

/-- A profile row (`profiles` table; `UserProfile` in
src/src/components/SettingsDialog.tsx lines 21-28). -/
structure Profile where
  id : String
  username : Option String
  full_name : Option String
  avatar_url : Option String
  theme_preference : String
  auto_save_interval : Nat
deriving DecidableEq, Repr

/-- The delay of the editor's autosave timer, in milliseconds: the
literal `30000` passed to `setTimeout` in NoteEditor.tsx line 270. -/
def autoSaveDelayMs : Nat := 30000

/-- The autosave delay a profile's setting prescribes: the settings
panel stores `auto_save_interval` in seconds and states "Notes will
auto-save every N seconds" (SettingsDialog.tsx lines 234-245). -/
def profileAutoSaveDelayMs (p : Profile) : Nat := p.auto_save_interval * 1000

/-- A profile whose autosave interval is set to 60 seconds. -/
def sixtySecondProfile : Profile :=
  { id := "u1", username := none, full_name := none, avatar_url := none
    theme_preference := "system", auto_save_interval := 60 }

/-- C5: the editor's autosave delay is the fixed literal 30000 ms; it
does not equal the delay prescribed by a profile whose
`auto_save_interval` is 60 seconds — the editor never reads the
setting. -/
theorem autoSaveDelay_ignores_profile :
    autoSaveDelayMs = 30000 ∧
    profileAutoSaveDelayMs sixtySecondProfile = 60000 ∧
    autoSaveDelayMs ≠ profileAutoSaveDelayMs sixtySecondProfile := by
  refine ⟨rfl, rfl, by decide⟩

/-- The editor's component state (NoteEditor.tsx lines 210-225):
draft fields, the dirty flag, the `saving` guard, plus a ghost counter
of store writes issued but not yet completed. -/
structure EditorState where
  currentNote : Option Note
  title : String
  content : String
  tags : List String
  isFavorite : Bool
  hasUnsavedChanges : Bool
  saving : Bool
  inFlightWrites : Nat
deriving DecidableEq, Repr

/-- A store write request issued by a save. -/
inductive SaveReq where
  | updateReq (id : String) (u : NoteUpdates)
  | insertReq (nd : NewNote)
deriving DecidableEq, Repr

/-- Events the editor reacts to: field edits, the explicit save button,
the autosave timer firing, and the completion of an in-flight save. -/
inductive EditorEvent where
  | setTitle (t : String)
  | setContent (c : String)
  | setTags (ts : List String)
  | setFavorite (b : Bool)
  | explicitSave
  | autosaveFire
  | saveDone (ok : Bool)
deriving DecidableEq, Repr

/-- A whitespace character, as JS `trim` removes (ASCII cases). -/
def isWsChar (c : Char) : Bool := c == ' ' || c == '\t' || c == '\n' || c == '\r'

/-- JS `String.prototype.trim`: strip leading and trailing whitespace. -/
def jsTrim (s : String) : String :=
  String.mk (((s.data.dropWhile isWsChar).reverse.dropWhile isWsChar).reverse)

/-- The dirty-tracking effect (NoteEditor.tsx lines 244-255): compare
draft fields with the current note, or with blankness in new-note mode. -/
def computeDirty (s : EditorState) : Bool :=
  match s.currentNote with
  | some n =>
      s.title != n.title || s.content != n.content ||
      s.tags != n.tags || s.isFavorite != n.isFavorite
  | none => jsTrim s.title != "" || jsTrim s.content != ""

/-- The note payload a save sends (lines 286-291; `title || 'Untitled
Note'` replaces an empty title). -/
def savePayload (s : EditorState) : NewNote :=
  { title := if s.title = "" then "Untitled Note" else s.title
    content := s.content
    tags := s.tags
    isFavorite := s.isFavorite
    folderId := none }

/-- `handleSave` up to its first await (lines 280-297): bail out when
title and content are both blank; bail out when a save is already in
flight (`if (saving) return`); otherwise set the `saving` guard and
issue exactly one write (an update for an existing note, an insert in
new-note mode). -/
def handleSave (s : EditorState) : EditorState × Option SaveReq :=
  if jsTrim s.title = "" ∧ jsTrim s.content = "" then (s, none)
  else if s.saving then (s, none)
  else
    ({ s with saving := true, inFlightWrites := s.inFlightWrites + 1 },
     some (match s.currentNote with
           | some n => SaveReq.updateReq n.id
               { title := some (savePayload s).title
                 content := some s.content
                 tags := some s.tags
                 isFavorite := some s.isFavorite
                 folderId := none }
           | none => SaveReq.insertReq (savePayload s)))

/-- One editor step.  Field setters re-run the dirty-tracking effect;
`autosaveFire` is the timer callback (lines 266-270), which saves only
when title or content is non-blank; `saveDone` is the continuation of
`handleSave` after the awaited write settles (lines 299-317): on success
the dirty flag clears, and the `finally` always clears `saving`. -/
def editorStep (s : EditorState) : EditorEvent → EditorState × Option SaveReq
  | EditorEvent.setTitle t =>
      let s' := { s with title := t }
      ({ s' with hasUnsavedChanges := computeDirty s' }, none)
  | EditorEvent.setContent c =>
      let s' := { s with content := c }
      ({ s' with hasUnsavedChanges := computeDirty s' }, none)
  | EditorEvent.setTags ts =>
      let s' := { s with tags := ts }
      ({ s' with hasUnsavedChanges := computeDirty s' }, none)
  | EditorEvent.setFavorite b =>
      let s' := { s with isFavorite := b }
      ({ s' with hasUnsavedChanges := computeDirty s' }, none)
  | EditorEvent.explicitSave => handleSave s
  | EditorEvent.autosaveFire =>
      if jsTrim s.title != "" || jsTrim s.content != "" then handleSave s else (s, none)
  | EditorEvent.saveDone ok =>
      ({ s with
          saving := false
          inFlightWrites := s.inFlightWrites - 1
          hasUnsavedChanges := if ok then false else s.hasUnsavedChanges }, none)

/-- The editor's initial state (lines 213-241): fields seeded from the
opened note, or blank in new-note mode; not dirty, not saving. -/
def initEditor (cur : Option Note) : EditorState :=
  { currentNote := cur
    title := (cur.map Note.title).getD ""
    content := (cur.map Note.content).getD ""
    tags := (cur.map Note.tags).getD []
    isFavorite := (cur.map Note.isFavorite).getD false
    hasUnsavedChanges := false
    saving := false
    inFlightWrites := 0 }

/-- Run the editor over a sequence of events. -/
def runEditor (s : EditorState) : List EditorEvent → EditorState
  | [] => s
  | e :: es => runEditor (editorStep s e).1 es

/-- The save-guard invariant: the ghost write counter agrees with the
`saving` flag. -/
def savingInv (s : EditorState) : Prop :=
  s.inFlightWrites = if s.saving then 1 else 0

theorem savingInv_handleSave (s : EditorState)
    (h : savingInv s) : savingInv (handleSave s).1 := by
  unfold handleSave
  split
  · exact h
  · split
    · exact h
    · rename_i hsv
      simp only [savingInv] at h ⊢
      rw [if_neg hsv] at h
      simp [h]

theorem savingInv_step (s : EditorState) (e : EditorEvent)
    (h : savingInv s) : savingInv (editorStep s e).1 := by
  cases e with
  | setTitle t => exact h
  | setContent c => exact h
  | setTags ts => exact h
  | setFavorite b => exact h
  | explicitSave => exact savingInv_handleSave s h
  | autosaveFire =>
      simp only [editorStep]
      split
      · exact savingInv_handleSave s h
      · exact h
  | saveDone ok =>
      simp only [editorStep, savingInv] at h ⊢
      cases hs : s.saving <;> rw [hs] at h <;> simp [h]

theorem savingInv_run (s : EditorState) (evs : List EditorEvent)
    (h : savingInv s) : savingInv (runEditor s evs) := by
  induction evs generalizing s with
  | nil => exact h
  | cons e es ih => exact ih _ (savingInv_step s e h)

theorem handleSave_none_of_saving (s : EditorState) (h : s.saving = true) :
    handleSave s = (s, none) := by
  unfold handleSave
  split
  · rfl
  · simp [h]

/-- C8: in every reachable editor state, while a save is in flight
(`saving`) exactly one write is outstanding, and no event — explicit
save, autosave timer, or anything else — issues another write until it
completes. -/
theorem no_concurrent_saves (cur : Option Note) (evs : List EditorEvent)
    (e : EditorEvent)
    (hsaving : (runEditor (initEditor cur) evs).saving = true) :
    (runEditor (initEditor cur) evs).inFlightWrites = 1 ∧
    (editorStep (runEditor (initEditor cur) evs) e).2 = none := by
  have hinv : savingInv (runEditor (initEditor cur) evs) :=
    savingInv_run _ evs (by simp [savingInv, initEditor])
  rw [savingInv, if_pos hsaving] at hinv
  refine ⟨hinv, ?_⟩
  cases e <;> simp only [editorStep]
  · exact congrArg Prod.snd (handleSave_none_of_saving _ hsaving)
  · split
    · exact congrArg Prod.snd (handleSave_none_of_saving _ hsaving)
    · rfl

theorem no_concurrent_saves_witness :
    (runEditor (initEditor none) [EditorEvent.setContent "hi", EditorEvent.explicitSave]).inFlightWrites = 1 ∧
    (editorStep (runEditor (initEditor none) [EditorEvent.setContent "hi", EditorEvent.explicitSave])
        EditorEvent.explicitSave).2 = none :=
  no_concurrent_saves none [EditorEvent.setContent "hi", EditorEvent.explicitSave]
    EditorEvent.explicitSave (by decide)

/-- C10: when title and content are both empty or whitespace-only, an
explicit save and an autosave expiry both issue no write and leave the
editor state (hence also the store) exactly unchanged. -/
theorem blank_note_is_never_saved (s : EditorState)
    (htitle : jsTrim s.title = "") (hcontent : jsTrim s.content = "") :
    editorStep s EditorEvent.explicitSave = (s, none) ∧
    editorStep s EditorEvent.autosaveFire = (s, none) := by
  constructor
  · show handleSave s = (s, none)
    unfold handleSave
    rw [if_pos ⟨htitle, hcontent⟩]
  · show (if jsTrim s.title != "" || jsTrim s.content != "" then handleSave s else (s, none)) = (s, none)
    rw [htitle, hcontent]
    rfl

/-- An editor draft whose title is whitespace-only and whose content is
empty. -/
def blankDraft : EditorState :=
  { currentNote := none, title := "   ", content := "", tags := ["keep"]
    isFavorite := true, hasUnsavedChanges := false, saving := false
    inFlightWrites := 0 }

theorem blank_note_is_never_saved_witness :
    editorStep blankDraft EditorEvent.explicitSave = (blankDraft, none) ∧
    editorStep blankDraft EditorEvent.autosaveFire = (blankDraft, none) :=
  blank_note_is_never_saved blankDraft (by decide) (by decide)

/-- The backend's persistent tables (schema in the migration embedded
in src/src/hooks/useTheme.ts). -/
structure DB where
  notesTable : List NoteRow
  foldersTable : List FolderRow
deriving DecidableEq, Repr

/-- The effect of deleting a folder row on the backend: the constraint
`notes_folder_id_fkey ... ON DELETE SET NULL` (useTheme.ts lines 76-79)
nulls `folder_id` on every referencing note row — the note rows
themselves are kept — and only the folder row is removed. -/
def dbDeleteFolder (db : DB) (fid : String) : DB :=
  { notesTable := db.notesTable.map
      (fun r => if r.folder_id = some fid then { r with folder_id := none } else r)
    foldersTable := db.foldersTable.filter (fun f => f.id != fid) }

/-- C9: after a successful `deleteFolder(F.id)`, a note referencing F
still exists: on the backend its row survives with `folder_id` nulled
(detached, not cascade-deleted) and the notes table keeps its size,
while the store's `deleteFolder` never touches the local note list. -/
theorem deleteFolder_detaches_notes (db : DB) (st : NotesState) (fid : String)
    (r : NoteRow) (hr : r ∈ db.notesTable) (href : r.folder_id = some fid) :
    { r with folder_id := none } ∈ (dbDeleteFolder db fid).notesTable ∧
    (dbDeleteFolder db fid).notesTable.length = db.notesTable.length ∧
    (∀ f ∈ (dbDeleteFolder db fid).foldersTable, f.id ≠ fid) ∧
    (deleteFolder st fid (Except.ok ())).1.notes = st.notes := by
  refine ⟨?_, ?_, ?_, rfl⟩
  · have : (if r.folder_id = some fid then { r with folder_id := none } else r) ∈
        (dbDeleteFolder db fid).notesTable := List.mem_map_of_mem _ hr
    rw [if_pos href] at this
    exact this
  · exact List.length_map _ _
  · intro f hf
    rcases List.mem_filter.mp hf with ⟨-, hid⟩
    simpa using hid

/-- A folder row used to instantiate the folder-deletion theorem. -/
def sampleFolderRow : FolderRow :=
  { id := "f1", name := "Work", color := none, created_at := 0 }

/-- A note row referencing `sampleFolderRow`. -/
def sampleNoteRow : NoteRow :=
  { id := "n1", title := "Old", content := "body", tags := some ["home"]
    is_favorite := some false, folder_id := some "f1"
    created_at := 0, updated_at := 3 }

/-- A backend holding just that note and folder. -/
def sampleDB : DB :=
  { notesTable := [sampleNoteRow], foldersTable := [sampleFolderRow] }

theorem deleteFolder_detaches_notes_witness :
    { sampleNoteRow with folder_id := none } ∈ (dbDeleteFolder sampleDB "f1").notesTable ∧
    (dbDeleteFolder sampleDB "f1").notesTable.length = sampleDB.notesTable.length ∧
    (∀ f ∈ (dbDeleteFolder sampleDB "f1").foldersTable, f.id ≠ "f1") ∧
    (deleteFolder sampleState "f1" (Except.ok ())).1.notes = sampleState.notes :=
  deleteFolder_detaches_notes sampleDB sampleState "f1" sampleNoteRow
    (by decide) (by decide)

end NotesApp
